import Mathlib

/-!
Verification of the tic-tac-toe engine and session logic of `velha.py`.

The board is a list of 9 characters; a blank (space) marks a free cell,
while the characters X and O mark the two players' cells.  The functions
below are direct translations of the Python source:

* `posicoes_de`        — module-level helper `posicoes_de(fonte, caracter)`
* `Velhus.*`           — the pure game-rules / minimax class `Velhus`
* `Velha.*`            — the per-player session class `Velha`
* `Partidas.*`         — the session registry class `Partidas`
* `JogoDaVelha.*`      — the controller class `JogoDaVelha`

Python exceptions (`ValueError` in `Velhus.joga`, `ValueError` from
`max()`/`min()` of an empty collection in `Velhus.melhor`, `IndexError`,
`NameError`) are modelled by `Option`, with `none` marking the raise.
-/

/-- Helper `posicoes_de(fonte, caracter)`: the indices at which `caracter`
occurs in `fonte` (translation of the Python list comprehension over
`enumerate(fonte)`). -/
def posicoes_de (fonte : List Char) (caracter : Char) : List Nat :=
  ((fonte.enum.filter (fun p => p.2 = caracter)).map Prod.fst)

/-- `Velhus.GANHANTES`: the eight winning index triples, in source order. -/
def Velhus.GANHANTES : List (List Nat) :=
  [[0, 1, 2], [3, 4, 5], [6, 7, 8],
   [0, 4, 8], [6, 4, 2],
   [0, 3, 6], [1, 4, 7], [2, 5, 8]]

/-- `Velhus.jogadas_possiveis`: the free positions of the board. -/
def Velhus.jogadas_possiveis (estado : List Char) : List Nat :=
  posicoes_de estado ' '

/-- `Velhus.posicoes_por_jogador`: the pair of X's positions and O's positions. -/
def Velhus.posicoes_por_jogador (estado : List Char) : List Nat × List Nat :=
  (posicoes_de estado 'X', posicoes_de estado 'O')

set_option linter.unusedVariables false in
/-- `Velhus.ganhou(posicoes, jogador)`: whether `posicoes` contains one of the
winning triples (`len(p - s) == 0` means the triple `p` is a subset of the
position set).  The `jogador` argument is unused, exactly as in the source. -/
def Velhus.ganhou (posicoes : List Nat) (jogador : Char) : Bool :=
  Velhus.GANHANTES.any (fun p => p.all (fun x => posicoes.contains x))

/-- `Velhus.joga(posicao, jogador)`: play at `posicao` when the cell is blank;
a non-blank cell raises `ValueError` (modelled by `none`; an out-of-range
index, which would raise `IndexError`, is also `none`). -/
def Velhus.joga (estado : List Char) (posicao : Nat) (jogador : Char) : Option (List Char) :=
  match estado.get? posicao with
  | some c => if c = ' ' then some (estado.set posicao jogador) else none
  | none => none

/-- `Velhus.resultado()`: the character X or O when that player owns a winning
triple (X checked first), `*` for a full board with no winner, `?` otherwise. -/
def Velhus.resultado (estado : List Char) : Char :=
  let jX := (Velhus.posicoes_por_jogador estado).1
  let jO := (Velhus.posicoes_por_jogador estado).2
  if Velhus.ganhou jX 'X' then 'X'
  else if Velhus.ganhou jO 'O' then 'O'
  else if Velhus.jogadas_possiveis estado = [] then '*'
  else '?'

/-- `Velhus.alterna(jogador)`: swap the player to move. -/
def Velhus.alterna (jogador : Char) : Char :=
  if jogador = 'O' then 'X' else 'O'

/-- `Velhus.melhor(result, jogador)`: the maximum of the recorded scores when
`jogador` is X, their minimum otherwise.  `max()`/`min()` of an empty
collection raises `ValueError`, modelled by `none`. -/
def Velhus.melhor (result : List (Nat × Int)) (jogador : Char) : Option Int :=
  if jogador = 'X' then (result.map Prod.snd).max?
  else (result.map Prod.snd).min?

/-- Body of `Velhus.proxima`, with the recursion depth `nmax - nivel`
carried explicitly as the structurally decreasing `fuel` argument (the
source guard `nivel < nmax` holds exactly when `fuel` is a successor, and
the recursive call at `nivel + 1` with the same `nmax` corresponds to
`fuel`'s predecessor).  A Python dict keyed by the move in ascending
insertion order is modelled as an association list built by `filterMap`.
`j.joga(possivel, jogador)` always succeeds because `possivel` is a blank
position, so it is rendered as `estado.set possivel jogador`; and
`self.melhor(lresult, outro) if lresult else 0` is rendered as
`(melhor lresult outro).getD 0` — `melhor` is `none` exactly on the empty
list, where the source takes the `else 0` branch. -/
def Velhus.proximaGo (jogador : Char) (estado : List Char) (nivel : Nat) (fuel : Nat) :
    List (Nat × Int) :=
  (Velhus.jogadas_possiveis estado).filterMap (fun possivel =>
    let j := estado.set possivel jogador
    let r := Velhus.resultado j
    if r = 'X' ∨ r = 'O' then
      let rlocal : Int := 10 - (nivel : Int)
      some (possivel, if r = 'X' then rlocal else -rlocal)
    else if r = '?' then
      match fuel with
      | 0 => none
      | f + 1 =>
        let outro := Velhus.alterna jogador
        let lresult := Velhus.proximaGo outro j (nivel + 1) f
        some (possivel, (Velhus.melhor lresult outro).getD 0)
    else none)

/-- `Velhus.proxima(jogador, estado, nivel, nmax)`: the score map of one ply
of search (see `Velhus.proximaGo` for the fuel encoding of `nivel < nmax`). -/
def Velhus.proxima (jogador : Char) (estado : List Char) (nivel : Nat) (nmax : Nat) :
    List (Nat × Int) :=
  Velhus.proximaGo jogador estado nivel (nmax - nivel)

/-- `Velhus.melhor_jogada(jogador, estado, dmax)`: all moves achieving the
best score of `proxima` at depth 0.  When the score map is empty, `melhor`
raises (`none`), and the exception propagates. -/
def Velhus.melhor_jogada (jogador : Char) (estado : List Char) (dmax : Nat) :
    Option (List Nat) :=
  let result := Velhus.proxima jogador estado 0 dmax
  (Velhus.melhor result jogador).map (fun melhor =>
    (result.filter (fun q => q.2 = melhor)).map Prod.fst)

/-- Session state of the `Velha` class: board, last-activity timestamp,
status message, stage (`tela`: 0 choosing difficulty, 1 choosing symbol,
2 playing, 3 finished), difficulty, the human's and the computer's symbols,
the registry key `user_id` and the presentation handle `message` (the
Telegram message identifier, opaque here; `none` models Python's `None`).
Timestamps (`time.time()`) are modelled as integers supplied explicitly. -/
structure Velha where
  estado : List Char
  ultima_jogada : Int
  mensagem : String
  tela : Nat
  dificuldade : Nat
  jogador : Char
  computador : Char
  user_id : Nat
  message : Option Nat
deriving DecidableEq, Repr

/-- `Velha.__init__(user_id)` at current time `now`. -/
def Velha.init (user_id : Nat) (now : Int) : Velha :=
  { estado := List.replicate 9 ' '
    ultima_jogada := now
    mensagem := "Olá!"
    tela := 0
    dificuldade := 0
    jogador := 'X'
    computador := 'O'
    user_id := user_id
    message := none }

/-- Python list index normalisation for a list of length `n`: a negative
index counts from the end; out of range is `none` (an `IndexError`). -/
def pyIndex (n : Nat) (i : Int) : Option Nat :=
  if 0 ≤ i ∧ i < (n : Int) then some i.toNat
  else if -(n : Int) ≤ i ∧ i < 0 then some (i + (n : Int)).toNat
  else none

/-- Python `l[i]` read on a character list. -/
def pyGet (l : List Char) (i : Int) : Option Char :=
  (pyIndex l.length i).bind (fun k => l.get? k)

/-- Python `l[i] = c` write on a character list (identity when out of
range; `Velha.joga` only writes after a successful read). -/
def pySet (l : List Char) (i : Int) (c : Char) : List Char :=
  match pyIndex l.length i with
  | some k => l.set k c
  | none => l

/-- `Velha.joga(posicao, jogador)`: stamp `ultima_jogada`, then either mark
the blank cell (message "OK", returns `true`) or leave the board and ask for
another position (returns `false`).  `posicao` is an `Int` because the
controller computes it as `int(query_data) - 1`, which can be negative. -/
def Velha.joga (jogo : Velha) (posicao : Int) (jogador : Char) (now : Int) :
    Option (Velha × Bool) :=
  let jogo := { jogo with ultima_jogada := now }
  match pyGet jogo.estado posicao with
  | none => none
  | some c =>
    if c = ' ' then
      some ({ jogo with estado := pySet jogo.estado posicao jogador, mensagem := "OK" }, true)
    else
      some ({ jogo with mensagem := "Você já jogou nesta posição, escolha outra" }, false)

/-- The registry's dictionary `user_id → Velha`, modelled as an association
list (Python dict keys are unique; theorems that need that fact assume
`(p.map Prod.fst).Nodup`). -/
abbrev Partidas := List (Nat × Velha)

/-- `Partidas.TIMEOUT = 15 * 60` seconds. -/
def Partidas.TIMEOUT : Int := 15 * 60

/-- `Partidas.pega_jogo(user_id)`: the user's session, created (and stored)
when absent. -/
def Partidas.pega_jogo (partidas : Partidas) (user_id : Nat) (now : Int) :
    Velha × Partidas :=
  match partidas.lookup user_id with
  | some jogo => (jogo, partidas)
  | none =>
    let jogo := Velha.init user_id now
    (jogo, (user_id, jogo) :: partidas)

/-- `Partidas.apaga(user_id)`: delete the user's entry. -/
def Partidas.apaga (partidas : Partidas) (user_id : Nat) : Partidas :=
  partidas.filter (fun q => q.1 ≠ user_id)

/-- In-place mutation of the session object held by the dictionary: every
entry of the key is replaced by the updated session. -/
def Partidas.store (partidas : Partidas) (user_id : Nat) (jogo : Velha) : Partidas :=
  partidas.map (fun q => if q.1 = user_id then (user_id, jogo) else q)

/-- `Partidas.novo_jogo(jogo)`: delete the session, create a fresh one for
the same user, and copy the old presentation handle onto it (the assignment
`novo.message = message` mutates the object stored in the dictionary, hence
the final `store`). -/
def Partidas.novo_jogo (partidas : Partidas) (jogo : Velha) (now : Int) :
    Velha × Partidas :=
  let message := jogo.message
  let user_id := jogo.user_id
  let p1 := Partidas.apaga partidas user_id
  let par := Partidas.pega_jogo p1 user_id now
  let novo := { par.1 with message := message }
  (novo, Partidas.store par.2 user_id novo)

/-- `Partidas.limpa_antigas()`: collect the users whose last activity is more
than `TIMEOUT` seconds before `agora`, then delete each of them. -/
def Partidas.limpa_antigas (partidas : Partidas) (agora : Int) : Partidas :=
  let a_remover :=
    ((partidas.filter (fun q => agora - q.2.ultima_jogada > Partidas.TIMEOUT)).map Prod.fst)
  a_remover.foldl (fun acc user => Partidas.apaga acc user) partidas

/-- `JogoDaVelha.configura_dificuldade(jogo, query_data)`: a difficulty token
sets `dificuldade` (1 easy, 2 medium, 3 hard) and moves to stage 1; anything
else is ignored. -/
def JogoDaVelha.configura_dificuldade (jogo : Velha) (query_data : String) : Velha :=
  if query_data = "facil" ∨ query_data = "medio" ∨ query_data = "dificil" then
    let d : Nat := if query_data = "facil" then 1
      else if query_data = "medio" then 2 else 3
    { jogo with dificuldade := d, tela := 1 }
  else jogo

/-- `JogoDaVelha.configura_primeiro_jogador(jogo, query_data)`: an X/O token
sets the human's symbol, gives the computer the complementary one, and moves
to stage 2; anything else is ignored. -/
def JogoDaVelha.configura_primeiro_jogador (jogo : Velha) (query_data : String) : Velha :=
  if query_data = "X" ∨ query_data = "O" then
    { jogo with
      jogador := if query_data = "X" then 'X' else 'O'
      computador := if query_data = "O" then 'X' else 'O'
      tela := 2 }
  else jogo

mutual

/-- `JogoDaVelha.verifica_resultado(jogo, computador)`: on an undecided board
the computer plays (unless the move just checked was its own) and `False` is
returned; otherwise the status message is set from the human's perspective
and the stage becomes 3.  `random.choice` is modelled by the parameter
`choose` (`none` models the `IndexError` it raises on an empty list). -/
def JogoDaVelha.verifica_resultado (choose : List Nat → Option Nat) (now : Int)
    (jogo : Velha) (computador : Bool) : Option (Velha × Bool) :=
  let r := Velhus.resultado jogo.estado
  if r = '?' then
    if computador = false then
      (JogoDaVelha.joga_pelo_computador choose now jogo).map (fun j => (j, false))
    else some (jogo, false)
  else if r = '*' then some ({ jogo with mensagem := "Empate", tela := 3 }, true)
  else if r = jogo.jogador then some ({ jogo with mensagem := "Você ganhou!", tela := 3 }, true)
  else some ({ jogo with mensagem := "Você perdeu!", tela := 3 }, true)
termination_by (if computador then 0 else 2)

/-- `JogoDaVelha.joga_pelo_computador(jogo)`: random first move or easy level,
otherwise a random element of `melhor_jogada` at depth 2 (medium) or 9
(hard); then the move is marked and the result re-checked with
`computador=True`.  A `dificuldade` outside 1..3 leaves the Python local
`posicao` unbound (`NameError`), modelled by `none`. -/
def JogoDaVelha.joga_pelo_computador (choose : List Nat → Option Nat) (now : Int)
    (jogo : Velha) : Option Velha :=
  let posicoes := Velhus.jogadas_possiveis jogo.estado
  let posicao? : Option Nat :=
    if posicoes.length = 9 ∨ jogo.dificuldade = 1 then choose posicoes
    else if jogo.dificuldade = 2 then
      (Velhus.melhor_jogada jogo.computador jogo.estado 2).bind choose
    else if jogo.dificuldade = 3 then
      (Velhus.melhor_jogada jogo.computador jogo.estado 9).bind choose
    else none
  match posicao? with
  | none => none
  | some posicao =>
    match Velha.joga jogo (posicao : Int) jogo.computador now with
    | none => none
    | some q =>
      (JogoDaVelha.verifica_resultado choose now q.1 true).map Prod.fst
termination_by 1

end

/-- `JogoDaVelha.callback_query(msg)`: the controller's dispatch on the user's
stage and the query token, with the Telegram sends/edits dropped (they do not
touch the core state modelled here) and each in-place session mutation made
visible in the returned registry via `Partidas.store`. -/
def JogoDaVelha.callback_query (choose : List Nat → Option Nat) (now : Int)
    (partidas : Partidas) (from_id : Nat) (query_data : String) : Option Partidas :=
  let par := Partidas.pega_jogo partidas from_id now
  let jogo := par.1
  let p := par.2
  if jogo.tela = 0 then
    some (Partidas.store p from_id (JogoDaVelha.configura_dificuldade jogo query_data))
  else if jogo.tela = 1 then
    let jogo1 := JogoDaVelha.configura_primeiro_jogador jogo query_data
    if jogo1.computador = 'X' then
      (JogoDaVelha.joga_pelo_computador choose now jogo1).map
        (fun j => Partidas.store p from_id j)
    else some (Partidas.store p from_id jogo1)
  else if query_data = "recomecar" then
    some (Partidas.novo_jogo p jogo now).2
  else if query_data.length = 1 ∧ query_data.all Char.isDigit ∧ jogo.tela = 2 then
    match query_data.toNat? with
    | none => none
    | some n =>
      let posicao : Int := (n : Int) - 1
      match Velha.joga jogo posicao jogo.jogador now with
      | none => none
      | some q =>
        if q.2 then
          (JogoDaVelha.verifica_resultado choose now q.1 false).map
            (fun v => Partidas.store p from_id v.1)
        else some (Partidas.store p from_id q.1)
  else if jogo.tela = 3 then
    some p
  else
    some p

/-! ### Helper lemmas -/

theorem mem_posicoes_de {fonte : List Char} {caracter : Char} {i : Nat} :
    i ∈ posicoes_de fonte caracter ↔ fonte.get? i = some caracter := by
  unfold posicoes_de
  simp only [List.mem_map, List.mem_filter, decide_eq_true_eq, Prod.exists]
  constructor
  · rintro ⟨j, c, ⟨hm, hc⟩, rfl⟩
    have := List.mk_mem_enum_iff_getElem?.1 hm
    rw [List.get?_eq_getElem?, this, hc]
  · intro h
    refine ⟨i, caracter, ⟨?_, rfl⟩, rfl⟩
    exact List.mk_mem_enum_iff_getElem?.2 (by rw [← List.get?_eq_getElem?, h])

theorem posicoes_de_nodup (fonte : List Char) (caracter : Char) :
    (posicoes_de fonte caracter).Nodup := by
  unfold posicoes_de
  have h1 : (fonte.enum.filter (fun p => p.2 = caracter)).Sublist fonte.enum :=
    List.filter_sublist _
  have h2 := h1.map Prod.fst
  rw [List.enum_map_fst] at h2
  exact h2.nodup (List.nodup_range _)

theorem lookup_filterMap_of_not_mem {f : Nat → Option (Nat × Int)}
    (hf : ∀ x p, f x = some p → p.1 = x) :
    ∀ (l : List Nat) (x : Nat), x ∉ l → (l.filterMap f).lookup x = none := by
  intro l
  induction l with
  | nil => intro x _; rfl
  | cons a t ih =>
    intro x hx
    have hxa : x ≠ a := fun h => hx (h ▸ List.mem_cons_self a t)
    have hxt : x ∉ t := fun h => hx (List.mem_cons_of_mem a h)
    rw [List.filterMap_cons]
    cases hfa : f a with
    | none => exact ih x hxt
    | some b =>
      have hb := hf a b hfa
      rw [List.lookup_cons]
      have : (x == b.1) = false := by
        rw [hb]; exact beq_false_of_ne hxa
      rw [this]
      exact ih x hxt

theorem lookup_filterMap {f : Nat → Option (Nat × Int)}
    (hf : ∀ x p, f x = some p → p.1 = x) :
    ∀ (l : List Nat), l.Nodup → ∀ x ∈ l, (l.filterMap f).lookup x = (f x).map Prod.snd := by
  intro l
  induction l with
  | nil => intro _ x hx; cases hx
  | cons a t ih =>
    intro hnd x hx
    have hnd' := hnd
    rw [List.nodup_cons] at hnd'
    rw [List.filterMap_cons]
    rcases List.mem_cons.1 hx with rfl | hxt
    · cases hfa : f x with
      | none =>
        rw [Option.map_none']
        exact lookup_filterMap_of_not_mem hf t x hnd'.1
      | some b =>
        have hb := hf x b hfa
        rw [List.lookup_cons]
        have : (x == b.1) = true := by rw [hb]; exact beq_self_eq_true x
        rw [this, Option.map_some']
    · have hxa : x ≠ a := fun h => hnd'.1 (h ▸ hxt)
      cases hfa : f a with
      | none => exact ih hnd'.2 x hxt
      | some b =>
        have hb := hf a b hfa
        rw [List.lookup_cons]
        have : (x == b.1) = false := by rw [hb]; exact beq_false_of_ne hxa
        rw [this]
        exact ih hnd'.2 x hxt

theorem melhor_nil (jogador : Char) : Velhus.melhor [] jogador = none := by
  unfold Velhus.melhor
  split <;> rfl

theorem ganhou_eq_true_iff (posicoes : List Nat) (jogador : Char) :
    Velhus.ganhou posicoes jogador = true ↔
      ∃ l ∈ Velhus.GANHANTES, ∀ x ∈ l, x ∈ posicoes := by
  unfold Velhus.ganhou
  simp [List.any_eq_true, List.all_eq_true, List.elem_iff]

/-! ### Claim theorems -/

set_option linter.unusedVariables false in
/-- C4 (confirmed): on boards drawn from blank/X/O, `resultado` reports an X
win exactly when X's occupied positions contain one of the eight winning
triples, an O win exactly when O's do and X's do not, a draw exactly when no
moves remain and neither player owns a triple, and "ongoing" otherwise; X's
win is reported when both players own a triple; and the three concrete boards
of the specification evaluate as stated. -/
theorem Velhus.resultado_spec (estado : List Char)
    (hcells : ∀ c ∈ estado, c = ' ' ∨ c = 'X' ∨ c = 'O') :
    ((Velhus.resultado estado = 'X' ↔
        ∃ l ∈ Velhus.GANHANTES, ∀ x ∈ l, x ∈ posicoes_de estado 'X') ∧
     (Velhus.resultado estado = 'O' ↔
        ((∃ l ∈ Velhus.GANHANTES, ∀ x ∈ l, x ∈ posicoes_de estado 'O') ∧
         ¬∃ l ∈ Velhus.GANHANTES, ∀ x ∈ l, x ∈ posicoes_de estado 'X')) ∧
     (Velhus.resultado estado = '*' ↔
        (Velhus.jogadas_possiveis estado = [] ∧
         (¬∃ l ∈ Velhus.GANHANTES, ∀ x ∈ l, x ∈ posicoes_de estado 'X') ∧
         ¬∃ l ∈ Velhus.GANHANTES, ∀ x ∈ l, x ∈ posicoes_de estado 'O')) ∧
     (Velhus.resultado estado = '?' ↔
        (Velhus.jogadas_possiveis estado ≠ [] ∧
         (¬∃ l ∈ Velhus.GANHANTES, ∀ x ∈ l, x ∈ posicoes_de estado 'X') ∧
         ¬∃ l ∈ Velhus.GANHANTES, ∀ x ∈ l, x ∈ posicoes_de estado 'O')) ∧
     (((∃ l ∈ Velhus.GANHANTES, ∀ x ∈ l, x ∈ posicoes_de estado 'X') ∧
       ∃ l ∈ Velhus.GANHANTES, ∀ x ∈ l, x ∈ posicoes_de estado 'O') →
        Velhus.resultado estado = 'X')) ∧
    Velhus.resultado ['X', 'X', 'X', ' ', 'O', 'O', ' ', ' ', ' '] = 'X' ∧
    Velhus.resultado ['X', 'O', 'X', 'O', 'X', 'O', 'O', 'X', 'O'] = '*' ∧
    Velhus.resultado (List.replicate 9 ' ') = '?' := by
  refine ⟨?_, by decide, by decide, by decide⟩
  rw [← ganhou_eq_true_iff (posicoes_de estado 'X') 'X',
    ← ganhou_eq_true_iff (posicoes_de estado 'O') 'O']
  by_cases hX : Velhus.ganhou (posicoes_de estado 'X') 'X' = true
  · have hr : Velhus.resultado estado = 'X' := by
      unfold Velhus.resultado Velhus.posicoes_por_jogador
      simp [hX]
    refine ⟨?_, ?_, ?_, ?_, fun _ => hr⟩ <;> simp [hr, hX]
  · have hX2 : Velhus.ganhou (posicoes_de estado 'X') 'X' = false := Bool.eq_false_iff.mpr hX
    by_cases hO : Velhus.ganhou (posicoes_de estado 'O') 'O' = true
    · have hr : Velhus.resultado estado = 'O' := by
        unfold Velhus.resultado Velhus.posicoes_por_jogador
        simp [hX2, hO]
      refine ⟨?_, ?_, ?_, ?_, ?_⟩ <;> simp [hr, hX2, hO]
    · have hO2 : Velhus.ganhou (posicoes_de estado 'O') 'O' = false := Bool.eq_false_iff.mpr hO
      by_cases hM : Velhus.jogadas_possiveis estado = []
      · have hr : Velhus.resultado estado = '*' := by
          unfold Velhus.resultado Velhus.posicoes_por_jogador
          simp [hX2, hO2, hM]
        refine ⟨?_, ?_, ?_, ?_, ?_⟩ <;> simp [hr, hX2, hO2, hM]
      · have hr : Velhus.resultado estado = '?' := by
          unfold Velhus.resultado Velhus.posicoes_por_jogador
          simp [hX2, hO2, hM]
        refine ⟨?_, ?_, ?_, ?_, ?_⟩ <;> simp [hr, hX2, hO2, hM]

/-- Witness for C4, instantiated on the winning-row board. -/
theorem Velhus.resultado_spec_witness :
    Velhus.resultado ['X', 'X', 'X', ' ', 'O', 'O', ' ', ' ', ' '] = 'X' :=
  (Velhus.resultado_spec ['X', 'X', 'X', ' ', 'O', 'O', ' ', ' ', ' '] (by decide)).2.1

/-- C7 (confirmed): `Velhus.joga` on an occupied cell raises (and, being
modelled functionally, the board is untouched); on a blank cell it returns
the board with exactly that cell set to the given symbol and every other
cell unchanged. -/
theorem Velhus.joga_spec (estado : List Char) (posicao : Nat) (jogador c : Char)
    (hc : estado.get? posicao = some c) :
    (c ≠ ' ' → Velhus.joga estado posicao jogador = none) ∧
    (c = ' ' →
      Velhus.joga estado posicao jogador = some (estado.set posicao jogador) ∧
      (estado.set posicao jogador).get? posicao = some jogador ∧
      ∀ i : Nat, i ≠ posicao → (estado.set posicao jogador).get? i = estado.get? i) := by
  have hlt : posicao < estado.length := by
    by_contra hge
    rw [List.get?_eq_none.2 (Nat.le_of_not_lt hge)] at hc
    cases hc
  constructor
  · intro hne
    unfold Velhus.joga
    rw [hc]
    simp [hne]
  · rintro rfl
    refine ⟨by unfold Velhus.joga; rw [hc]; simp, ?_, ?_⟩
    · rw [List.get?_eq_getElem?, List.getElem?_set_self (by simpa using hlt)]
    · intro i hi
      rw [List.get?_eq_getElem?, List.get?_eq_getElem?,
        List.getElem?_set_ne (fun h => hi h.symm)]

/-- Witness for C7: playing on the occupied cell 0 fails, playing on the
blank cell 1 marks exactly that cell. -/
theorem Velhus.joga_spec_witness :
    Velhus.joga ['X', ' ', ' ', ' ', ' ', ' ', ' ', ' ', ' '] 0 'O' = none ∧
    Velhus.joga ['X', ' ', ' ', ' ', ' ', ' ', ' ', ' ', ' '] 1 'O' =
      some ['X', 'O', ' ', ' ', ' ', ' ', ' ', ' ', ' '] :=
  ⟨(Velhus.joga_spec ['X', ' ', ' ', ' ', ' ', ' ', ' ', ' ', ' '] 0 'O' 'X' (by decide)).1
      (by decide),
   ((Velhus.joga_spec ['X', ' ', ' ', ' ', ' ', ' ', ' ', ' ', ' '] 1 'O' ' ' (by decide)).2
      rfl).1⟩

/-- C8 (confirmed): on a nine-cell board drawn from blank/X/O the free
positions, X's positions and O's positions are pairwise disjoint and together
are exactly the indices 0..8. -/
theorem Velhus.particao_indices (estado : List Char)
    (hlen : estado.length = 9)
    (hcells : ∀ c ∈ estado, c = ' ' ∨ c = 'X' ∨ c = 'O') (i : Nat) :
    ((i ∈ Velhus.jogadas_possiveis estado ∨
      i ∈ (Velhus.posicoes_por_jogador estado).1 ∨
      i ∈ (Velhus.posicoes_por_jogador estado).2) ↔ i < 9) ∧
    ¬(i ∈ Velhus.jogadas_possiveis estado ∧ i ∈ (Velhus.posicoes_por_jogador estado).1) ∧
    ¬(i ∈ Velhus.jogadas_possiveis estado ∧ i ∈ (Velhus.posicoes_por_jogador estado).2) ∧
    ¬(i ∈ (Velhus.posicoes_por_jogador estado).1 ∧
      i ∈ (Velhus.posicoes_por_jogador estado).2) := by
  unfold Velhus.jogadas_possiveis Velhus.posicoes_por_jogador
  simp only [mem_posicoes_de]
  refine ⟨⟨?_, ?_⟩, ?_, ?_, ?_⟩
  · rintro (h | h | h) <;>
      (rw [← hlen]; exact List.get?_eq_some.1 h |>.fst)
  · intro hi
    rw [← hlen] at hi
    have hc : estado.get? i = some (estado.get ⟨i, hi⟩) := List.get?_eq_get hi
    rcases hcells (estado.get ⟨i, hi⟩) (List.get?_mem hc) with h | h | h
    · exact Or.inl (h ▸ hc)
    · exact Or.inr (Or.inl (h ▸ hc))
    · exact Or.inr (Or.inr (h ▸ hc))
  · rintro ⟨h1, h2⟩
    rw [h1] at h2
    cases h2
  · rintro ⟨h1, h2⟩
    rw [h1] at h2
    cases h2
  · rintro ⟨h1, h2⟩
    rw [h1] at h2
    cases h2

/-- Witness for C8, instantiated on a mixed board at index 4. -/
theorem Velhus.particao_indices_witness :
    ((4 ∈ Velhus.jogadas_possiveis ['X', 'O', ' ', ' ', 'X', ' ', 'O', ' ', ' '] ∨
      4 ∈ (Velhus.posicoes_por_jogador ['X', 'O', ' ', ' ', 'X', ' ', 'O', ' ', ' ']).1 ∨
      4 ∈ (Velhus.posicoes_por_jogador ['X', 'O', ' ', ' ', 'X', ' ', 'O', ' ', ' ']).2) ↔
        4 < 9) ∧
    ¬(4 ∈ Velhus.jogadas_possiveis ['X', 'O', ' ', ' ', 'X', ' ', 'O', ' ', ' '] ∧
      4 ∈ (Velhus.posicoes_por_jogador ['X', 'O', ' ', ' ', 'X', ' ', 'O', ' ', ' ']).1) ∧
    ¬(4 ∈ Velhus.jogadas_possiveis ['X', 'O', ' ', ' ', 'X', ' ', 'O', ' ', ' '] ∧
      4 ∈ (Velhus.posicoes_por_jogador ['X', 'O', ' ', ' ', 'X', ' ', 'O', ' ', ' ']).2) ∧
    ¬(4 ∈ (Velhus.posicoes_por_jogador ['X', 'O', ' ', ' ', 'X', ' ', 'O', ' ', ' ']).1 ∧
      4 ∈ (Velhus.posicoes_por_jogador ['X', 'O', ' ', ' ', 'X', ' ', 'O', ' ', ' ']).2) :=
  Velhus.particao_indices ['X', 'O', ' ', ' ', 'X', ' ', 'O', ' ', ' ']
    (by decide) (by decide) 4

/-- C2 (confirmed): with O to move on `[X,X,_,_,O,_,_,_,_]` and search depth
2, `melhor_jogada` returns exactly the singleton move 2, blocking X's
immediate win on the top row. -/
theorem Velhus.melhor_jogada_bloqueia :
    Velhus.melhor_jogada 'O' ['X', 'X', ' ', ' ', 'O', ' ', ' ', ' ', ' '] 2 = some [2] := by
  decide

/-- C1 (corrected): when `proxima` yields an empty score map, `melhor_jogada`
does not return an empty move list — `melhor` is `max()`/`min()` of an empty
collection, which raises `ValueError` (modelled by `none`), and the
exception propagates out of `melhor_jogada`. -/
theorem Velhus.melhor_jogada_empty_raises (jogador : Char) (estado : List Char) (dmax : Nat)
    (h : Velhus.proxima jogador estado 0 dmax = []) :
    Velhus.melhor_jogada jogador estado dmax = none := by
  simp only [Velhus.melhor_jogada, h, melhor_nil, Option.map_none']

/-- Witness for (the corrected) C1: a board on which the depth-2 score map is
empty, so `melhor_jogada` raises. -/
theorem Velhus.melhor_jogada_empty_raises_witness :
    Velhus.melhor_jogada 'O' ['X', 'O', 'X', 'O', 'X', 'O', 'O', 'X', ' '] 2 = none :=
  Velhus.melhor_jogada_empty_raises 'O' ['X', 'O', 'X', 'O', 'X', 'O', 'O', 'X', ' '] 2
    (by decide)

/-- Counterexample to C1 as stated: on `[X,O,X,O,X,O,O,X,_]` with O to move
and depth 2 the score map of `proxima` is empty (the only move draws), yet
`melhor_jogada` does not return the empty move sequence — it raises. -/
theorem Velhus.melhor_jogada_empty_counterexample :
    Velhus.proxima 'O' ['X', 'O', 'X', 'O', 'X', 'O', 'O', 'X', ' '] 0 2 = [] ∧
    Velhus.melhor_jogada 'O' ['X', 'O', 'X', 'O', 'X', 'O', 'O', 'X', ' '] 2 = none ∧
    Velhus.melhor_jogada 'O' ['X', 'O', 'X', 'O', 'X', 'O', 'O', 'X', ' '] 2 ≠ some [] :=
  ⟨by decide, by decide, by decide⟩

/-- C6 (confirmed): on a non-empty score map, `melhor` returns the maximum of
the scores for player X and their minimum for player O; on the synthetic map
{0:5, 1:-3, 2:5} it returns 5 for X and -3 for O. -/
theorem Velhus.melhor_minmax (result : List (Nat × Int)) (hne : result ≠ []) :
    (∃ mx, Velhus.melhor result 'X' = some mx ∧ mx ∈ result.map Prod.snd ∧
      ∀ v ∈ result.map Prod.snd, v ≤ mx) ∧
    (∃ mn, Velhus.melhor result 'O' = some mn ∧ mn ∈ result.map Prod.snd ∧
      ∀ v ∈ result.map Prod.snd, mn ≤ v) ∧
    Velhus.melhor [(0, 5), (1, -3), (2, 5)] 'X' = some 5 ∧
    Velhus.melhor [(0, 5), (1, -3), (2, 5)] 'O' = some (-3) := by
  haveI : Std.Antisymm ((· : Int) ≤ ·) := ⟨fun h1 h2 => Int.le_antisymm h1 h2⟩
  have hmape : result.map Prod.snd ≠ [] := by simpa using hne
  refine ⟨?_, ?_, by decide, by decide⟩
  · cases hmax : (result.map Prod.snd).max? with
    | none => exact absurd (List.max?_eq_none_iff.1 hmax) hmape
    | some m =>
      have hm := (List.max?_eq_some_iff (fun a => le_refl a)
        (fun a b => max_choice a b) (fun _ _ _ => max_le_iff)).1 hmax
      exact ⟨m, by unfold Velhus.melhor; simpa using hmax, hm.1, hm.2⟩
  · cases hmin : (result.map Prod.snd).min? with
    | none => exact absurd (List.min?_eq_none_iff.1 hmin) hmape
    | some m =>
      have hm := (List.min?_eq_some_iff (fun a => le_refl a)
        (fun a b => min_choice a b) (fun _ _ _ => le_min_iff)).1 hmin
      exact ⟨m, by unfold Velhus.melhor; simpa using hmin, hm.1, hm.2⟩

/-- Witness for C6, instantiated on the synthetic score map {0:5, 1:-3, 2:5}. -/
theorem Velhus.melhor_minmax_witness :
    (∃ mx, Velhus.melhor [(0, 5), (1, -3), (2, 5)] 'X' = some mx ∧
      mx ∈ ([(0, 5), (1, -3), (2, 5)] : List (Nat × Int)).map Prod.snd ∧
      ∀ v ∈ ([(0, 5), (1, -3), (2, 5)] : List (Nat × Int)).map Prod.snd, v ≤ mx) ∧
    (∃ mn, Velhus.melhor [(0, 5), (1, -3), (2, 5)] 'O' = some mn ∧
      mn ∈ ([(0, 5), (1, -3), (2, 5)] : List (Nat × Int)).map Prod.snd ∧
      ∀ v ∈ ([(0, 5), (1, -3), (2, 5)] : List (Nat × Int)).map Prod.snd, mn ≤ v) ∧
    Velhus.melhor [(0, 5), (1, -3), (2, 5)] 'X' = some 5 ∧
    Velhus.melhor [(0, 5), (1, -3), (2, 5)] 'O' = some (-3) :=
  Velhus.melhor_minmax [(0, 5), (1, -3), (2, 5)] (by decide)

/-- C5 (confirmed): a legal move whose resulting outcome is a win is recorded
by `proxima` with score `10 - nivel` when X is the winner and `-(10 - nivel)`
when O is the winner. -/
theorem Velhus.proxima_win_score (jogador : Char) (estado : List Char)
    (nivel nmax : Nat) (possivel : Nat)
    (hmem : possivel ∈ Velhus.jogadas_possiveis estado) :
    (Velhus.resultado (estado.set possivel jogador) = 'X' →
      (Velhus.proxima jogador estado nivel nmax).lookup possivel =
        some (10 - (nivel : Int))) ∧
    (Velhus.resultado (estado.set possivel jogador) = 'O' →
      (Velhus.proxima jogador estado nivel nmax).lookup possivel =
        some (-(10 - (nivel : Int)))) := by
  have hnd : (Velhus.jogadas_possiveis estado).Nodup := posicoes_de_nodup estado ' '
  constructor
  · intro hr
    unfold Velhus.proxima Velhus.proximaGo
    rw [lookup_filterMap ?hf1 _ hnd possivel hmem]
    · simp [hr]
    case hf1 =>
      intro x p hp
      dsimp only at hp
      split at hp
      · cases hp; rfl
      · split at hp
        · split at hp
          · cases hp
          · cases hp; rfl
        · cases hp
  · intro hr
    unfold Velhus.proxima Velhus.proximaGo
    rw [lookup_filterMap ?hf2 _ hnd possivel hmem]
    · simp [hr]
    case hf2 =>
      intro x p hp
      dsimp only at hp
      split at hp
      · cases hp; rfl
      · split at hp
        · split at hp
          · cases hp
          · cases hp; rfl
        · cases hp

/-- Witness for C5: on `[X,X,_,_,O,_,_,_,_]` the move 2 by X wins at once and
is recorded with score `10 - 0 = 10`. -/
theorem Velhus.proxima_win_score_witness :
    (Velhus.proxima 'X' ['X', 'X', ' ', ' ', 'O', ' ', ' ', ' ', ' '] 0 2).lookup 2 =
      some (10 - ((0 : Nat) : Int)) :=
  (Velhus.proxima_win_score 'X' ['X', 'X', ' ', ' ', 'O', ' ', ' ', ' ', ' '] 0 2 2
    (by decide)).1 (by decide)

/-- C10 (confirmed): below the horizon, a legal move whose outcome is still
undecided and whose recursive evaluation returns an empty score map is
recorded in the parent map with score 0 (neither omitted nor an error). -/
theorem Velhus.proxima_empty_rec_zero (jogador : Char) (estado : List Char)
    (nivel nmax : Nat) (possivel : Nat)
    (hlt : nivel < nmax)
    (hmem : possivel ∈ Velhus.jogadas_possiveis estado)
    (hr : Velhus.resultado (estado.set possivel jogador) = '?')
    (hrec : Velhus.proxima (Velhus.alterna jogador) (estado.set possivel jogador)
        (nivel + 1) nmax = []) :
    (Velhus.proxima jogador estado nivel nmax).lookup possivel = some 0 := by
  have hnd : (Velhus.jogadas_possiveis estado).Nodup := posicoes_de_nodup estado ' '
  obtain ⟨k, hk⟩ : ∃ k, nmax - nivel = k + 1 := ⟨nmax - nivel - 1, by omega⟩
  have hrec2 : Velhus.proximaGo (Velhus.alterna jogador) (estado.set possivel jogador)
      (nivel + 1) k = [] := by
    have hk2 : k = nmax - (nivel + 1) := by omega
    rw [hk2]
    exact hrec
  unfold Velhus.proxima Velhus.proximaGo
  rw [hk, lookup_filterMap ?hf3 _ hnd possivel hmem]
  · simp [hr, hrec2, melhor_nil]
  case hf3 =>
    intro x p hp
    dsimp only at hp
    split at hp
    · cases hp; rfl
    · split at hp
      · cases hp; rfl
      · cases hp

/-- Witness for C10: on the empty board with depth cap 1, X's move 0 is
undecided, the depth-1 recursion returns the empty map, and the move is
recorded with score 0. -/
theorem Velhus.proxima_empty_rec_zero_witness :
    (Velhus.proxima 'X' (List.replicate 9 ' ') 0 1).lookup 0 = some 0 :=
  Velhus.proxima_empty_rec_zero 'X' (List.replicate 9 ' ') 0 1 0
    (by decide) (by decide) (by decide) (by decide)

theorem lookup_apaga (partidas : Partidas) (user_id : Nat) :
    (Partidas.apaga partidas user_id).lookup user_id = none := by
  induction partidas with
  | nil => rfl
  | cons q t ih =>
    unfold Partidas.apaga at ih ⊢
    rw [List.filter_cons]
    by_cases hq : q.1 = user_id
    · simp only [hq]
      simpa using ih
    · have hd : (decide ¬q.1 = user_id) = true := by simpa using hq
      rw [hd]
      simp only [if_true]
      rw [List.lookup_cons]
      have : (user_id == q.1) = false := beq_false_of_ne (fun h => hq h.symm)
      rw [this]
      exact ih

/-- C3 (corrected): a "recomecar" token is only handled when the session's
stage is neither 0 (choosing difficulty) nor 1 (choosing symbol); there it
replaces the session with a fresh stage-0 session on an empty board, with
difficulty unset, that keeps the old presentation handle. -/
theorem JogoDaVelha.callback_recomecar (choose : List Nat → Option Nat) (now : Int)
    (partidas : Partidas) (from_id : Nat) (jogo : Velha)
    (hlk : partidas.lookup from_id = some jogo)
    (hid : jogo.user_id = from_id)
    (h0 : jogo.tela ≠ 0) (h1 : jogo.tela ≠ 1) :
    ∃ p' : Partidas,
      JogoDaVelha.callback_query choose now partidas from_id "recomecar" = some p' ∧
      ∃ novo : Velha, p'.lookup from_id = some novo ∧
        novo.tela = 0 ∧ novo.estado = List.replicate 9 ' ' ∧
        novo.dificuldade = 0 ∧ novo.message = jogo.message := by
  unfold JogoDaVelha.callback_query Partidas.pega_jogo
  rw [hlk]
  dsimp only
  rw [if_neg h0, if_neg h1, if_pos rfl]
  refine ⟨(Partidas.novo_jogo partidas jogo now).2, rfl, ?_⟩
  refine ⟨{ Velha.init from_id now with message := jogo.message }, ?_, rfl, rfl, rfl, rfl⟩
  simp only [Partidas.novo_jogo, hid, Partidas.pega_jogo, lookup_apaga, Partidas.store]
  rw [List.map_cons, if_pos rfl, List.lookup_cons]
  simp [Velha.init]

/-- Witness for (the corrected) C3: restart during play (stage 2) yields a
fresh stage-0 session that keeps the presentation handle `some 7`. -/
theorem JogoDaVelha.callback_recomecar_witness :
    ∃ p' : Partidas,
      JogoDaVelha.callback_query (fun l => l.head?) 5
          [(1, (⟨['X', 'O', 'X', ' ', ' ', ' ', ' ', ' ', ' '], 0, "OK", 2, 3,
                 'X', 'O', 1, some 7⟩ : Velha))]
          1 "recomecar" = some p' ∧
      ∃ novo : Velha, p'.lookup 1 = some novo ∧
        novo.tela = 0 ∧ novo.estado = List.replicate 9 ' ' ∧
        novo.dificuldade = 0 ∧
        novo.message =
          (⟨['X', 'O', 'X', ' ', ' ', ' ', ' ', ' ', ' '], 0, "OK", 2, 3,
            'X', 'O', 1, some 7⟩ : Velha).message :=
  JogoDaVelha.callback_recomecar (fun l => l.head?) 5
    [(1, (⟨['X', 'O', 'X', ' ', ' ', ' ', ' ', ' ', ' '], 0, "OK", 2, 3,
           'X', 'O', 1, some 7⟩ : Velha))]
    1 (⟨['X', 'O', 'X', ' ', ' ', ' ', ' ', ' ', ' '], 0, "OK", 2, 3,
        'X', 'O', 1, some 7⟩ : Velha)
    (by decide) (by decide) (by decide) (by decide)

/-- Counterexample to C3 as stated: in stage 1 (choosing the symbol) the
"recomecar" token falls into the symbol-configuration branch, which ignores
it — the session survives untouched, still in stage 1 with its difficulty
set, instead of being replaced by a fresh stage-0 session. -/
theorem JogoDaVelha.callback_recomecar_counterexample :
    (JogoDaVelha.callback_query (fun l => l.head?) 0
        [(1, (⟨List.replicate 9 ' ', 0, "Olá!", 1, 2, 'X', 'O', 1, some 7⟩ : Velha))]
        1 "recomecar").bind (fun p => p.lookup 1) =
      some (⟨List.replicate 9 ' ', 0, "Olá!", 1, 2, 'X', 'O', 1, some 7⟩ : Velha) ∧
    (⟨List.replicate 9 ' ', 0, "Olá!", 1, 2, 'X', 'O', 1, some 7⟩ : Velha).tela = 1 ∧
    (⟨List.replicate 9 ' ', 0, "Olá!", 1, 2, 'X', 'O', 1, some 7⟩ : Velha).tela ≠ 0 :=
  ⟨by decide, by decide, by decide⟩

theorem foldl_apaga_mem (l : List Nat) (partidas : Partidas) (q : Nat × Velha) :
    q ∈ l.foldl (fun acc user => Partidas.apaga acc user) partidas ↔
      q ∈ partidas ∧ q.1 ∉ l := by
  induction l generalizing partidas with
  | nil => simp
  | cons a t ih =>
    rw [List.foldl_cons, ih]
    unfold Partidas.apaga
    simp only [List.mem_filter, List.mem_cons, decide_eq_true_eq]
    tauto

/-- C9 (confirmed): the idle sweep removes exactly the sessions whose last
activity lies more than `TIMEOUT` (15 minutes = 900 seconds) before `agora`
and retains all others (stated for registries with distinct keys — the
Python dict invariant). -/
theorem Partidas.limpa_antigas_spec (partidas : Partidas) (agora : Int)
    (hnd : (partidas.map Prod.fst).Nodup) (q : Nat × Velha) :
    q ∈ Partidas.limpa_antigas partidas agora ↔
      (q ∈ partidas ∧ ¬(agora - q.2.ultima_jogada > Partidas.TIMEOUT)) := by
  unfold Partidas.limpa_antigas
  rw [foldl_apaga_mem]
  constructor
  · rintro ⟨hq, hnr⟩
    refine ⟨hq, fun hstale => hnr ?_⟩
    exact List.mem_map.2 ⟨q, List.mem_filter.2 ⟨hq, by simpa using hstale⟩, rfl⟩
  · rintro ⟨hq, hfresh⟩
    refine ⟨hq, fun hmem => ?_⟩
    obtain ⟨q', hq', hfst⟩ := List.mem_map.1 hmem
    rw [List.mem_filter] at hq'
    have hqq : q' = q :=
      List.inj_on_of_nodup_map hnd hq'.1 hq hfst
    rw [hqq] at hq'
    exact hfresh (by simpa using hq'.2)

/-- Witness for C9: at time 901 the sweep drops the session idle since time 0
(901 seconds > 900) and keeps the one active at time 900 (1 second ago). -/
theorem Partidas.limpa_antigas_spec_witness :
    (2, (⟨List.replicate 9 ' ', 900, "Olá!", 0, 0, 'X', 'O', 2, none⟩ : Velha)) ∈
      Partidas.limpa_antigas
        [(1, (⟨List.replicate 9 ' ', 0, "Olá!", 0, 0, 'X', 'O', 1, none⟩ : Velha)),
         (2, (⟨List.replicate 9 ' ', 900, "Olá!", 0, 0, 'X', 'O', 2, none⟩ : Velha))] 901 ∧
    (1, (⟨List.replicate 9 ' ', 0, "Olá!", 0, 0, 'X', 'O', 1, none⟩ : Velha)) ∉
      Partidas.limpa_antigas
        [(1, (⟨List.replicate 9 ' ', 0, "Olá!", 0, 0, 'X', 'O', 1, none⟩ : Velha)),
         (2, (⟨List.replicate 9 ' ', 900, "Olá!", 0, 0, 'X', 'O', 2, none⟩ : Velha))] 901 :=
  ⟨(Partidas.limpa_antigas_spec
      [(1, (⟨List.replicate 9 ' ', 0, "Olá!", 0, 0, 'X', 'O', 1, none⟩ : Velha)),
       (2, (⟨List.replicate 9 ' ', 900, "Olá!", 0, 0, 'X', 'O', 2, none⟩ : Velha))] 901
      (by decide)
      (2, (⟨List.replicate 9 ' ', 900, "Olá!", 0, 0, 'X', 'O', 2, none⟩ : Velha))).mpr
    ⟨by decide, by decide⟩,
   fun h =>
    absurd ((Partidas.limpa_antigas_spec
      [(1, (⟨List.replicate 9 ' ', 0, "Olá!", 0, 0, 'X', 'O', 1, none⟩ : Velha)),
       (2, (⟨List.replicate 9 ' ', 900, "Olá!", 0, 0, 'X', 'O', 2, none⟩ : Velha))] 901
      (by decide)
      (1, (⟨List.replicate 9 ' ', 0, "Olá!", 0, 0, 'X', 'O', 1, none⟩ : Velha))).mp h).2
      (by decide)⟩

